import Mathlib

/-!
Verification of the cashtrack small-shop cash-management core.

The definitions below are a shallow embedding of the repository's domain
logic:

* `Transaction`, `setCashFlow`, `cleanFields`, `Transaction.save` embed
  `transactions/models.py` (`Transaction.save`, `Transaction.clean`).
  Monetary values are modelled as integers (paisa, i.e. hundredths of PKR):
  the Django fields are 2-decimal-place decimals, so `MinValueValidator(0.01)`
  on `amount` coincides with `amount ≤ 0` failing, and all arithmetic is
  exact integer arithmetic.
* `BillRec`, `billCreateView`, `billMarkAsPaidView`, `billBulkMarkAsPaidView`
  embed `bills/models.py` and `bills/views.py`.  The `@db_transaction.atomic`
  decorator is modelled by returning the unchanged state (or an `Except`
  error) when a nested transaction save fails.
* `PersistedTxn`, `dailyWalk`, `dailyRollup` embed
  `dashboard/views.py` (`DailyBalanceHistoryView.get_context_data`); days are
  modelled by their local civil date as a natural number.
* `analyticsGroups`, `groupTotals`, `periodTotals` embed
  `analytics/views.py` (`AnalyticsView.get_context_data`).
-/

namespace Cashtrack

/-- The transaction type enumeration of `transactions/models.py`
(`TRANSACTION_TYPE_CHOICES`), including the legacy aliases kept for
backward compatibility. -/
inductive TransactionType where
  | MOBILE_WALLET_SEND
  | MOBILE_WALLET_RECEIVE
  | STATIONARY_SALE
  | PRINT_COPY
  | DEPOSIT
  | CREDIT
  | LOAD_PACKAGE
  | OTHER
  | JAZZCASH_SEND
  | JAZZCASH_RECEIVE
  | EASYPAISA_SEND
  | EASYPAISA_RECEIVE
  | CASH_CREDIT
  | BILL_PAYMENT
  | BANK_DEPOSIT
  | BANK_WITHDRAWAL
  deriving DecidableEq, Repr, Fintype

/-- The list `[MOBILE_WALLET_SEND, JAZZCASH_SEND, EASYPAISA_SEND]` used by the
first branch of `Transaction.save`. -/
def mobileWalletSendFamily : List TransactionType :=
  [.MOBILE_WALLET_SEND, .JAZZCASH_SEND, .EASYPAISA_SEND]

/-- The list `[MOBILE_WALLET_RECEIVE, JAZZCASH_RECEIVE, EASYPAISA_RECEIVE]`
used by the second branch of `Transaction.save`. -/
def mobileWalletReceiveFamily : List TransactionType :=
  [.MOBILE_WALLET_RECEIVE, .JAZZCASH_RECEIVE, .EASYPAISA_RECEIVE]

/-- The list `[MOBILE_WALLET_SEND, MOBILE_WALLET_RECEIVE, BILL_PAYMENT]` used
by the business-logic validation in `Transaction.clean` (note: it does not
include the legacy aliases). -/
def feeCheckedTypes : List TransactionType :=
  [.MOBILE_WALLET_SEND, .MOBILE_WALLET_RECEIVE, .BILL_PAYMENT]

/-- The in-memory `Transaction` model instance as it stands when `save` is
called: `fee` is nullable (`null=True`), `cash_in`/`cash_out` default to 0
but may have been assigned by the caller before `save`.  Amounts are in
paisa (hundredths of PKR). -/
structure Transaction where
  transaction_type : TransactionType
  amount : Int
  fee : Option Int
  cash_in : Int
  cash_out : Int
  deriving DecidableEq, Repr

/-- The keys of the error dict raised by `Transaction.clean`
(`errors['amount']`, `errors['fee']`). -/
inductive FieldKey where
  | amount
  | fee
  deriving DecidableEq, Repr

/-- `Transaction.clean` together with the field validators run by
`full_clean`: the key set of the raised `ValidationError`'s error dict,
empty when validation passes.

`clean` adds `'amount'` when `amount <= 0` (the field validator
`MinValueValidator(0.01)` rejects exactly the same 2-decimal values) and
`'fee'` when `fee < 0` or when — both `amount` and `fee` being truthy
(nonzero) and the type being one of `feeCheckedTypes` — `fee > amount`. -/
def cleanFields (ty : TransactionType) (amount : Int) (fee : Int) : List FieldKey :=
  (if amount ≤ 0 then [FieldKey.amount] else []) ++
    (if fee < 0 ∨ (amount ≠ 0 ∧ fee ≠ 0 ∧ ty ∈ feeCheckedTypes ∧ amount < fee) then
      [FieldKey.fee]
    else [])

/-- The cash-flow assignment performed at the top of `Transaction.save`:
`fee` is defaulted to 0 when `None`, then `cash_in`/`cash_out` are set by the
if/elif chain on `transaction_type`; the final `else` (reached only by
`OTHER` for the defined enumeration) assigns `cash_out = amount` only when
both fields are still zero. -/
def setCashFlow (t : Transaction) : Transaction :=
  let fee := t.fee.getD 0
  let t0 : Transaction := { t with fee := some fee }
  if t0.transaction_type ∈ mobileWalletSendFamily then
    { t0 with cash_in := t0.amount + fee, cash_out := 0 }
  else if t0.transaction_type ∈ mobileWalletReceiveFamily then
    { t0 with cash_out := t0.amount, cash_in := fee }
  else if t0.transaction_type = .STATIONARY_SALE then
    { t0 with cash_in := t0.amount, cash_out := 0 }
  else if t0.transaction_type = .PRINT_COPY then
    { t0 with cash_in := t0.amount, cash_out := 0 }
  else if t0.transaction_type = .DEPOSIT then
    { t0 with cash_in := t0.amount, cash_out := 0 }
  else if t0.transaction_type = .CREDIT then
    { t0 with cash_out := t0.amount, cash_in := 0 }
  else if t0.transaction_type = .LOAD_PACKAGE then
    { t0 with cash_in := t0.amount, cash_out := 0 }
  else if t0.transaction_type = .CASH_CREDIT then
    { t0 with cash_out := t0.amount, cash_in := 0 }
  else if t0.transaction_type = .BILL_PAYMENT then
    { t0 with cash_in := t0.amount + fee, cash_out := 0 }
  else if t0.transaction_type = .BANK_DEPOSIT then
    { t0 with cash_out := t0.amount, cash_in := 0 }
  else if t0.transaction_type = .BANK_WITHDRAWAL then
    { t0 with cash_in := t0.amount, cash_out := 0 }
  else if t0.cash_in = 0 ∧ t0.cash_out = 0 then
    { t0 with cash_out := t0.amount }
  else
    t0

/-- `Transaction.save` on its default path (`skip_validation` absent):
assign the derived cash-flow pair, run `full_clean`, and persist only when
no validation error was raised; a raised `ValidationError` aborts the save
with its error keys. -/
def Transaction.save (t : Transaction) : Except (List FieldKey) Transaction :=
  let t1 := setCashFlow t
  let errs := cleanFields t1.transaction_type t1.amount (t1.fee.getD 0)
  if errs = [] then .ok t1 else .error errs

/-- Modelled from the spec: the classification table of spec §4.1
(`classify(type, amount, fee) -> (cash_in, cash_out)`), with the legacy
aliases classified like the type they alias.  Used to compare the table in
the spec against the code's `Transaction.save`. -/
def specClassify : TransactionType → Int → Int → Int × Int
  | .MOBILE_WALLET_SEND, amount, fee => (amount + fee, 0)
  | .JAZZCASH_SEND, amount, fee => (amount + fee, 0)
  | .EASYPAISA_SEND, amount, fee => (amount + fee, 0)
  | .MOBILE_WALLET_RECEIVE, amount, fee => (fee, amount)
  | .JAZZCASH_RECEIVE, amount, fee => (fee, amount)
  | .EASYPAISA_RECEIVE, amount, fee => (fee, amount)
  | .STATIONARY_SALE, amount, _ => (amount, 0)
  | .PRINT_COPY, amount, _ => (amount, 0)
  | .DEPOSIT, amount, _ => (amount, 0)
  | .LOAD_PACKAGE, amount, _ => (amount, 0)
  | .BANK_WITHDRAWAL, amount, _ => (amount, 0)
  | .CREDIT, amount, _ => (0, amount)
  | .CASH_CREDIT, amount, _ => (0, amount)
  | .BANK_DEPOSIT, amount, _ => (0, amount)
  | .BILL_PAYMENT, amount, fee => (amount + fee, 0)
  | .OTHER, amount, _ => (0, amount)

/-! ## Bill lifecycle (`bills/models.py`, `bills/views.py`) -/

/-- The stored bill statuses reachable by the code: `status` defaults to
`PENDING` and is only ever assigned `PAID` (`OVERDUE` is derived at read
time by `Bill.is_overdue`, never persisted by the views). -/
inductive BillStatus where
  | PENDING
  | PAID
  deriving DecidableEq, Repr

/-- The `Bill` fields the bill-lifecycle claims are about: `transaction` is
the nullable `OneToOneField` to the paying `Transaction` (by id), `paid_at`
the nullable payment timestamp. -/
structure BillRec where
  amount : Int
  fee : Option Int
  status : BillStatus
  transaction : Option Nat
  paid_at : Option Nat
  deriving DecidableEq, Repr

/-- The persisted-transaction table: saved transactions keyed by id, plus
the next fresh id. -/
structure Store where
  txns : List (Nat × Transaction)
  nextTxnId : Nat
  deriving DecidableEq, Repr

/-- The `Transaction.objects.create(transaction_type=BILL_PAYMENT, ...,
amount=bill.amount, fee=bill.fee, ...)` call shared by the three bill
views. -/
def billPaymentTxn (b : BillRec) : Transaction :=
  { transaction_type := .BILL_PAYMENT, amount := b.amount, fee := b.fee,
    cash_in := 0, cash_out := 0 }

/-- `Transaction.objects.create(...)`: run `save` on the fresh instance and
append it to the store under a fresh id, or propagate the
`ValidationError`. -/
def createTxn (s : Store) (t : Transaction) : Except (List FieldKey) (Store × Nat) :=
  match t.save with
  | .error e => .error e
  | .ok t1 =>
      .ok ({ txns := s.txns ++ [(s.nextTxnId, t1)], nextTxnId := s.nextTxnId + 1 },
        s.nextTxnId)

/-- `Bill.mark_as_paid(transaction)`: set status `PAID`, link the
transaction, stamp `paid_at = now`, save. -/
def markAsPaid (b : BillRec) (txnId : Nat) (now : Nat) : BillRec :=
  { b with status := .PAID, transaction := some txnId, paid_at := some now }

/-- `BillCreateView.form_valid`: save the new bill (`PENDING`), create a
`BILL_PAYMENT` transaction for it, link the transaction, and keep the bill
`PENDING` (the view deliberately does not call `mark_as_paid`).  The whole
block is `@db_transaction.atomic`, so a transaction validation failure
leaves no bill behind. -/
def billCreateView (s : Store) (amount : Int) (fee : Option Int) :
    Except (List FieldKey) (Store × BillRec) :=
  let b : BillRec :=
    { amount := amount, fee := fee, status := .PENDING, transaction := none,
      paid_at := none }
  match createTxn s (billPaymentTxn b) with
  | .error e => .error e
  | .ok (s1, id) => .ok (s1, { b with transaction := some id })

/-- The observable outcome of `BillMarkAsPaidView.post`: success message
with the created transaction, the "already paid" warning, or a propagated
`ValidationError` (which, the block being atomic, rolls everything back). -/
inductive PayOutcome where
  | paid (txnId : Nat)
  | alreadyPaid
  | rejected (errs : List FieldKey)
  deriving DecidableEq, Repr

/-- `BillMarkAsPaidView.post`: warn and change nothing when the bill is
already `PAID`; otherwise create a `BILL_PAYMENT` transaction from the
bill's amount and fee and `mark_as_paid` it.  `@db_transaction.atomic`:
a validation failure rolls the whole request back. -/
def billMarkAsPaidView (s : Store) (b : BillRec) (now : Nat) :
    Store × BillRec × PayOutcome :=
  if b.status = BillStatus.PAID then (s, b, .alreadyPaid)
  else
    match createTxn s (billPaymentTxn b) with
    | .error e => (s, b, .rejected e)
    | .ok (s1, id) => (s1, markAsPaid b id now, .paid id)

/-- The per-bill loop body of `BillBulkMarkAsPaidView.post`, applied to the
`status=PENDING`-filtered selection: each pending bill gets its own
transaction and `mark_as_paid`; other bills are left untouched; `count` is
incremented per transitioned bill.  An exception anywhere aborts the whole
atomic block. -/
def bulkGo (now : Nat) : Store → List BillRec → Except (List FieldKey) (Store × List BillRec × Nat)
  | s, [] => .ok (s, [], 0)
  | s, b :: rest =>
      if b.status = BillStatus.PENDING then
        match createTxn s (billPaymentTxn b) with
        | .error e => .error e
        | .ok (s1, id) =>
            match bulkGo now s1 rest with
            | .error e => .error e
            | .ok (s2, rest', c) => .ok (s2, markAsPaid b id now :: rest', c + 1)
      else
        match bulkGo now s rest with
        | .error e => .error e
        | .ok (s2, rest', c) => .ok (s2, b :: rest', c)

/-- `BillBulkMarkAsPaidView.post` over a caller-supplied selection: when the
selection contains no `PENDING` bill the view warns and changes nothing;
otherwise each pending bill is paid and the count of transitioned bills is
reported. -/
def billBulkMarkAsPaidView (s : Store) (bills : List BillRec) (now : Nat) :
    Except (List FieldKey) (Store × List BillRec × Nat) :=
  if bills.all (fun b => !(b.status == BillStatus.PENDING)) then .ok (s, bills, 0)
  else bulkGo now s bills

/-! ## Daily balance rollup (`dashboard/views.py`) -/

/-- A persisted transaction row as the dashboard and analytics queries see
it: the saved `transaction_type`, `amount`, `fee` (defaulted to 0 by
`save`), the derived `cash_in`/`cash_out`, and the local civil date of
`created_at` as a day number. -/
structure PersistedTxn where
  transaction_type : TransactionType
  amount : Int
  fee : Int
  cash_in : Int
  cash_out : Int
  day : Nat
  deriving DecidableEq, Repr

/-- `Sum('cash_in') - Sum('cash_out')` over a list of rows (`or 0` on the
empty set is the empty sum). -/
def netTotal (rows : List PersistedTxn) : Int :=
  (rows.map (fun r => r.cash_in - r.cash_out)).sum

/-- The rows whose `created_at` falls on day `d`
(`created_at__range=(day_start, day_end)` of that day). -/
def onDay (rows : List PersistedTxn) (d : Nat) : List PersistedTxn :=
  rows.filter (fun r => r.day == d)

/-- One element of the `daily_data` context list built by
`DailyBalanceHistoryView.get_context_data`. -/
structure DaySummary where
  date : Nat
  opening_balance : Int
  cash_in : Int
  cash_out : Int
  net_change : Int
  closing_balance : Int
  transaction_count : Nat
  is_today : Bool
  deriving DecidableEq, Repr

/-- The `while current_date <= end_date` loop of
`DailyBalanceHistoryView.get_context_data`, walking over an explicit list of
consecutive days: aggregate the day's rows, chain the running balance, and
emit the day only when it has transactions or is the local current date. -/
def dailyWalk (rows : List PersistedTxn) (today : Nat) : List Nat → Int → List DaySummary
  | [], _ => []
  | d :: rest, opening =>
      let dayRows := onDay rows d
      let cin := (dayRows.map (fun r => r.cash_in)).sum
      let cout := (dayRows.map (fun r => r.cash_out)).sum
      let count := dayRows.length
      let closing := opening + (cin - cout)
      let tail := dailyWalk rows today rest closing
      if 0 < count ∨ d = today then
        { date := d, opening_balance := opening, cash_in := cin, cash_out := cout,
          net_change := cin - cout, closing_balance := closing,
          transaction_count := count, is_today := d == today } :: tail
      else tail

/-- `DailyBalanceHistoryView.get_context_data` for the range
`[start, endDate]` (in chronological order; the view reverses the list for
display afterwards): opening balance is the net of all rows strictly before
`start`, then the walk visits every day of the range. -/
def dailyRollup (rows : List PersistedTxn) (today start endDate : Nat) : List DaySummary :=
  let opening := netTotal (rows.filter (fun r => decide (r.day < start)))
  dailyWalk rows today (List.range' start (endDate + 1 - start)) opening

/-! ## Analytics category rollups (`analytics/views.py`) -/

/-- The `transaction_types` dict of `AnalyticsView.get_context_data`: the
fixed type-groups, in order (mobile_wallet_send, mobile_wallet_receive,
print_copy, stationary, deposit, credit, load_package, bill_payment). -/
def analyticsGroups : List (List TransactionType) :=
  [[.MOBILE_WALLET_SEND, .JAZZCASH_SEND, .EASYPAISA_SEND],
   [.MOBILE_WALLET_RECEIVE, .JAZZCASH_RECEIVE, .EASYPAISA_RECEIVE],
   [.PRINT_COPY],
   [.STATIONARY_SALE],
   [.DEPOSIT],
   [.CREDIT],
   [.LOAD_PACKAGE],
   [.BILL_PAYMENT]]

/-- The union of the analytics type-groups. -/
def coveredTypes : List TransactionType := analyticsGroups.flatten

/-- The four analytics windows (`periods` dict). -/
inductive AnalyticsWindow where
  | todayWindow
  | yesterdayWindow
  | monthly
  | allTime
  deriving DecidableEq, Repr

/-- The date filtering applied per window: exact date for today and
yesterday (`yesterday = today - timedelta(days=1)`), the inclusive range
`[month_start, today]` for monthly, no filter for all-time. -/
def inWindow (today monthStart : Nat) : AnalyticsWindow → Nat → Bool
  | .todayWindow, d => d == today
  | .yesterdayWindow, d => d == today - 1
  | .monthly, d => decide (monthStart ≤ d ∧ d ≤ today)
  | .allTime, _ => true

/-- One `period_data[type_name]` entry: net cash (`cash_in - cash_out`),
profit (sum of fees; summing only truthy fees equals summing all fees), and
count over the group's transactions in the window. -/
structure GroupTotals where
  cash : Int
  profit : Int
  count : Nat
  deriving DecidableEq, Repr

/-- The per-group, per-window aggregation loop of
`AnalyticsView.get_context_data`. -/
def groupTotals (rows : List PersistedTxn) (today monthStart : Nat)
    (w : AnalyticsWindow) (g : List TransactionType) : GroupTotals :=
  let sel := rows.filter
    (fun r => decide (r.transaction_type ∈ g) && inWindow today monthStart w r.day)
  { cash := (sel.map (fun r => r.cash_in - r.cash_out)).sum,
    profit := (sel.map (fun r => r.fee)).sum,
    count := sel.length }

/-- `period_totals[period_name]`: the grand total for a window, summed
across the per-group aggregates. -/
def periodTotals (rows : List PersistedTxn) (today monthStart : Nat)
    (w : AnalyticsWindow) : GroupTotals :=
  { cash := (analyticsGroups.map (fun g => (groupTotals rows today monthStart w g).cash)).sum,
    profit := (analyticsGroups.map (fun g => (groupTotals rows today monthStart w g).profit)).sum,
    count := (analyticsGroups.map (fun g => (groupTotals rows today monthStart w g).count)).sum }

/-! ## Lemmas about the classification step -/

lemma setCashFlow_transaction_type (t : Transaction) :
    (setCashFlow t).transaction_type = t.transaction_type := by
  simp only [setCashFlow, apply_ite Transaction.transaction_type, ite_self]

lemma setCashFlow_amount (t : Transaction) :
    (setCashFlow t).amount = t.amount := by
  simp only [setCashFlow, apply_ite Transaction.amount, ite_self]

lemma setCashFlow_fee (t : Transaction) :
    (setCashFlow t).fee = some (t.fee.getD 0) := by
  simp only [setCashFlow, apply_ite Transaction.fee, ite_self]

lemma cleanFields_eq_nil_iff (ty : TransactionType) (amount fee : Int) :
    cleanFields ty amount fee = [] ↔
      ¬(amount ≤ 0) ∧
        ¬(fee < 0 ∨ (amount ≠ 0 ∧ fee ≠ 0 ∧ ty ∈ feeCheckedTypes ∧ amount < fee)) := by
  unfold cleanFields
  by_cases h1 : amount ≤ 0 <;>
    by_cases h2 : fee < 0 ∨ (amount ≠ 0 ∧ fee ≠ 0 ∧ ty ∈ feeCheckedTypes ∧ amount < fee) <;>
      simp [h1, h2]

lemma save_eq_ok_iff (t t' : Transaction) :
    t.save = .ok t' ↔
      t' = setCashFlow t ∧
        cleanFields t.transaction_type t.amount (t.fee.getD 0) = [] := by
  unfold Transaction.save
  dsimp only
  rw [setCashFlow_transaction_type, setCashFlow_amount, setCashFlow_fee]
  simp only [Option.getD_some]
  by_cases h : cleanFields t.transaction_type t.amount (t.fee.getD 0) = []
  · simp [h, eq_comm]
  · simp [h]

lemma save_ok_valid (t t' : Transaction) (h : t.save = .ok t') :
    t' = setCashFlow t ∧ 0 < t.amount ∧ 0 ≤ t.fee.getD 0 ∧
      (t.transaction_type ∈ feeCheckedTypes → t.fee.getD 0 ≤ t.amount) := by
  rw [save_eq_ok_iff] at h
  obtain ⟨ht, hc⟩ := h
  rw [cleanFields_eq_nil_iff, not_or] at hc
  obtain ⟨ha, hf, hbiz⟩ := hc
  refine ⟨ht, by omega, by omega, fun hty => ?_⟩
  by_contra hlt
  exact hbiz ⟨by omega, by omega, hty, by omega⟩

theorem mem_cleanFields_amount (ty : TransactionType) (amount fee : Int)
    (h : amount ≤ 0) : FieldKey.amount ∈ cleanFields ty amount fee := by
  unfold cleanFields
  simp [h]

theorem mem_cleanFields_fee (ty : TransactionType) (amount fee : Int)
    (h : fee < 0 ∨ (amount ≠ 0 ∧ fee ≠ 0 ∧ ty ∈ feeCheckedTypes ∧ amount < fee)) :
    FieldKey.fee ∈ cleanFields ty amount fee := by
  unfold cleanFields
  simp [h]

/-- C1: for every transaction whose type is in the enumeration (legacy
aliases classifying like their modern counterparts), amount > 0 and
fee ≥ 0 (defaulted to 0 when absent), the classification step of
`Transaction.save` deterministically sets `(cash_in, cash_out)` exactly per
the table of spec §4.1 (`specClassify`); for `OTHER` this is under the
caveat, stated by the claim itself, that the caller has not pre-set either
field. -/
theorem save_classifies_per_spec_table (t : Transaction)
    (_ha : 0 < t.amount) (_hf : 0 ≤ t.fee.getD 0)
    (hother : t.transaction_type = TransactionType.OTHER →
      t.cash_in = 0 ∧ t.cash_out = 0) :
    ((setCashFlow t).cash_in, (setCashFlow t).cash_out)
      = specClassify t.transaction_type t.amount (t.fee.getD 0) := by
  cases hty : t.transaction_type <;>
    simp_all [setCashFlow, specClassify, mobileWalletSendFamily,
      mobileWalletReceiveFamily, hty]

/-- Witness for C1 at spec Scenario 1: MOBILE_WALLET_SEND, amount=1000.00,
fee=20.00 → cash_in=1020.00, cash_out=0. -/
theorem save_classifies_per_spec_table_witness :
    ((setCashFlow ⟨.MOBILE_WALLET_SEND, 100000, some 2000, 0, 0⟩).cash_in,
      (setCashFlow ⟨.MOBILE_WALLET_SEND, 100000, some 2000, 0, 0⟩).cash_out)
      = specClassify .MOBILE_WALLET_SEND 100000 2000 :=
  save_classifies_per_spec_table ⟨.MOBILE_WALLET_SEND, 100000, some 2000, 0, 0⟩
    (by decide) (by decide) (by decide)

/-- C2: saving fails with a `ValidationError` keyed by field when
amount ≤ 0, or fee < 0, or — for MOBILE_WALLET_SEND, MOBILE_WALLET_RECEIVE
or BILL_PAYMENT — fee > amount; the failure happens before persistence and
no transaction is returned (no partial save). -/
theorem save_rejects_invalid (t : Transaction)
    (h : t.amount ≤ 0 ∨ t.fee.getD 0 < 0 ∨
      (t.transaction_type ∈ feeCheckedTypes ∧ t.amount < t.fee.getD 0)) :
    ∃ errs, t.save = .error errs ∧ errs ≠ [] ∧
      (t.amount ≤ 0 → FieldKey.amount ∈ errs) ∧
      (t.fee.getD 0 < 0 → FieldKey.fee ∈ errs) ∧
      (0 < t.amount → t.transaction_type ∈ feeCheckedTypes →
        t.amount < t.fee.getD 0 → FieldKey.fee ∈ errs) ∧
      (∀ t', ¬ t.save = .ok t') := by
  have hne : cleanFields t.transaction_type t.amount (t.fee.getD 0) ≠ [] := by
    rw [Ne, cleanFields_eq_nil_iff]
    rintro ⟨ha, hrest⟩
    rw [not_or] at hrest
    obtain ⟨hf, hbiz⟩ := hrest
    rcases h with h | h | ⟨hmem, hlt⟩
    · exact ha h
    · exact hf h
    · exact hbiz ⟨by omega, by omega, hmem, hlt⟩
  have hsave : t.save = .error (cleanFields t.transaction_type t.amount (t.fee.getD 0)) := by
    unfold Transaction.save
    dsimp only
    rw [setCashFlow_transaction_type, setCashFlow_amount, setCashFlow_fee]
    simp only [Option.getD_some]
    rw [if_neg hne]
  refine ⟨_, hsave, hne, fun ha => mem_cleanFields_amount _ _ _ ha,
    fun hf => mem_cleanFields_fee _ _ _ (Or.inl hf),
    fun hpos hmem hlt => mem_cleanFields_fee _ _ _ (Or.inr ⟨by omega, by omega, hmem, hlt⟩),
    fun t' => by simp [hsave]⟩

/-- Witness for C2 at spec Scenario 5: MOBILE_WALLET_SEND with fee=1200.00
greater than amount=1000.00 → ValidationError on `fee`, nothing saved. -/
theorem save_rejects_invalid_witness :
    ∃ errs,
      Transaction.save ⟨.MOBILE_WALLET_SEND, 100000, some 120000, 0, 0⟩ = .error errs ∧
      errs ≠ [] ∧
      ((100000 : Int) ≤ 0 → FieldKey.amount ∈ errs) ∧
      ((120000 : Int) < 0 → FieldKey.fee ∈ errs) ∧
      ((0 : Int) < 100000 → TransactionType.MOBILE_WALLET_SEND ∈ feeCheckedTypes →
        (100000 : Int) < 120000 → FieldKey.fee ∈ errs) ∧
      (∀ t', ¬ Transaction.save ⟨.MOBILE_WALLET_SEND, 100000, some 120000, 0, 0⟩ = .ok t') :=
  save_rejects_invalid ⟨.MOBILE_WALLET_SEND, 100000, some 120000, 0, 0⟩
    (Or.inr (Or.inr ⟨by decide, by decide⟩))

/-- Counterexample to C7: for an `OTHER` transaction whose caller pre-set
`cash_in = 7.00`, `save` keeps the caller's pair `(700, 0)` instead of
recomputing the derived pair `(0, amount)`; likewise a row whose stored pair
is `(10000, 0)` (e.g. a saved STATIONARY_SALE of 100.00 whose type was then
mutated to `OTHER`) keeps `(10000, 0)` on re-save.  So `cash_in`/`cash_out`
are not recomputed from `(type, amount, fee)` regardless of previously
stored values. -/
theorem derived_pair_counterexample :
    Transaction.save ⟨.OTHER, 10000, some 0, 700, 0⟩
        = .ok ⟨.OTHER, 10000, some 0, 700, 0⟩ ∧
    Transaction.save ⟨.OTHER, 10000, some 0, 10000, 0⟩
        = .ok ⟨.OTHER, 10000, some 0, 10000, 0⟩ ∧
    specClassify .OTHER 10000 0 = (0, 10000) :=
  ⟨rfl, rfl, rfl⟩

/-- C7 amended: on every successful save the stored pair equals the
classification of the current `(type, amount, fee)` for every type except
`OTHER`; for `OTHER` the pair is recomputed (to `(0, amount)`) only when
both stored fields are zero, and the previously stored pair is preserved
otherwise. -/
theorem derived_pair_amended (t t' : Transaction) (h : t.save = .ok t') :
    (t.transaction_type ≠ TransactionType.OTHER →
      (t'.cash_in, t'.cash_out)
        = specClassify t.transaction_type t.amount (t.fee.getD 0)) ∧
    (t.transaction_type = TransactionType.OTHER →
      (t'.cash_in, t'.cash_out)
        = if t.cash_in = 0 ∧ t.cash_out = 0 then (0, t.amount)
          else (t.cash_in, t.cash_out)) := by
  obtain ⟨ht', _, _, _⟩ := save_ok_valid t t' h
  subst ht'
  constructor
  · intro hne
    cases hty : t.transaction_type <;>
      simp_all [setCashFlow, specClassify, mobileWalletSendFamily,
        mobileWalletReceiveFamily]
  · intro hty
    by_cases hz : t.cash_in = 0 ∧ t.cash_out = 0 <;>
      simp [setCashFlow, hty, hz, mobileWalletSendFamily, mobileWalletReceiveFamily]

/-- Witness for the amended C7: a CREDIT of 5.00 (absent fee) saves with
the derived pair `(0, 500)`. -/
theorem derived_pair_amended_witness :
    (TransactionType.CREDIT ≠ TransactionType.OTHER →
      ((0 : Int), (500 : Int)) = specClassify .CREDIT 500 0) ∧
    (TransactionType.CREDIT = TransactionType.OTHER →
      ((0 : Int), (500 : Int))
        = if (0 : Int) = 0 ∧ (0 : Int) = 0 then ((0 : Int), (500 : Int))
          else ((0 : Int), (0 : Int))) :=
  derived_pair_amended ⟨.CREDIT, 500, none, 0, 0⟩ ⟨.CREDIT, 500, some 0, 0, 500⟩ rfl

/-- Counterexample to C8: an `OTHER` transaction whose caller pre-set both
`cash_in = 5.00` and `cash_out = 7.00` saves successfully with both fields
nonzero, though `OTHER` is a defined type outside the
MOBILE_WALLET_RECEIVE family. -/
theorem exactly_one_nonzero_counterexample :
    Transaction.save ⟨.OTHER, 10000, some 0, 500, 700⟩
        = .ok ⟨.OTHER, 10000, some 0, 500, 700⟩ ∧
    TransactionType.OTHER ∉ mobileWalletReceiveFamily ∧
    ¬(((500 : Int) ≠ 0 ∧ (700 : Int) = 0) ∨ ((500 : Int) = 0 ∧ (700 : Int) ≠ 0)) :=
  ⟨rfl, by decide, by decide⟩

/-- C8 amended: on every successful save, a MOBILE_WALLET_RECEIVE-family
transaction splits the withdrawal as `cash_out = amount`, `cash_in = fee`;
every other defined type except `OTHER` ends with exactly one of
`cash_in`/`cash_out` nonzero; and `OTHER` also does whenever the caller
pre-set neither field. -/
theorem exactly_one_nonzero_amended (t t' : Transaction) (h : t.save = .ok t') :
    (t.transaction_type ∈ mobileWalletReceiveFamily →
      t'.cash_out = t.amount ∧ t'.cash_in = t.fee.getD 0) ∧
    (t.transaction_type ∉ mobileWalletReceiveFamily →
      t.transaction_type ≠ TransactionType.OTHER →
      (t'.cash_in ≠ 0 ∧ t'.cash_out = 0) ∨ (t'.cash_in = 0 ∧ t'.cash_out ≠ 0)) ∧
    (t.transaction_type = TransactionType.OTHER → t.cash_in = 0 → t.cash_out = 0 →
      (t'.cash_in ≠ 0 ∧ t'.cash_out = 0) ∨ (t'.cash_in = 0 ∧ t'.cash_out ≠ 0)) := by
  obtain ⟨ht', ha, hf, _⟩ := save_ok_valid t t' h
  subst ht'
  refine ⟨?_, ?_, ?_⟩
  · intro hmem
    cases hty : t.transaction_type <;>
      simp_all [setCashFlow, mobileWalletSendFamily, mobileWalletReceiveFamily]
  · intro hmem hne
    cases hty : t.transaction_type <;>
      simp_all [setCashFlow, mobileWalletSendFamily, mobileWalletReceiveFamily] <;>
        omega
  · intro hty h1 h2
    simp_all [setCashFlow, mobileWalletSendFamily, mobileWalletReceiveFamily]
    omega

/-- Witness for the amended C8 at spec Scenario 2: MOBILE_WALLET_RECEIVE,
amount=1000.00, fee=20.00 → cash_out=1000.00, cash_in=20.00. -/
theorem exactly_one_nonzero_amended_witness :
    (TransactionType.MOBILE_WALLET_RECEIVE ∈ mobileWalletReceiveFamily →
      (100000 : Int) = 100000 ∧ (2000 : Int) = 2000) ∧
    (TransactionType.MOBILE_WALLET_RECEIVE ∉ mobileWalletReceiveFamily →
      TransactionType.MOBILE_WALLET_RECEIVE ≠ TransactionType.OTHER →
      ((2000 : Int) ≠ 0 ∧ (100000 : Int) = 0) ∨ ((2000 : Int) = 0 ∧ (100000 : Int) ≠ 0)) ∧
    (TransactionType.MOBILE_WALLET_RECEIVE = TransactionType.OTHER →
      (0 : Int) = 0 → (0 : Int) = 0 →
      ((2000 : Int) ≠ 0 ∧ (100000 : Int) = 0) ∨ ((2000 : Int) = 0 ∧ (100000 : Int) ≠ 0)) :=
  exactly_one_nonzero_amended ⟨.MOBILE_WALLET_RECEIVE, 100000, some 2000, 0, 0⟩
    ⟨.MOBILE_WALLET_RECEIVE, 100000, some 2000, 2000, 100000⟩ rfl

/-! ## Lemmas about the bill lifecycle -/

lemma billPaymentTxn_save_ok (b : BillRec) (ha : 0 < b.amount)
    (hf : 0 ≤ b.fee.getD 0) (hfa : b.fee.getD 0 ≤ b.amount) :
    (billPaymentTxn b).save = .ok (setCashFlow (billPaymentTxn b)) := by
  rw [save_eq_ok_iff]
  refine ⟨rfl, ?_⟩
  rw [cleanFields_eq_nil_iff, not_or]
  simp only [billPaymentTxn]
  refine ⟨by omega, by omega, ?_⟩
  rintro ⟨-, -, -, hlt⟩
  omega

lemma createTxn_billPayment (s : Store) (b : BillRec) (ha : 0 < b.amount)
    (hf : 0 ≤ b.fee.getD 0) (hfa : b.fee.getD 0 ≤ b.amount) :
    createTxn s (billPaymentTxn b)
      = .ok ({ txns := s.txns ++ [(s.nextTxnId, setCashFlow (billPaymentTxn b))],
               nextTxnId := s.nextTxnId + 1 }, s.nextTxnId) := by
  unfold createTxn
  rw [billPaymentTxn_save_ok b ha hf hfa]

/-- Counterexample to C3: creating a bill through the bill-creation view
(`BillCreateView.form_valid`) already creates a `BILL_PAYMENT` transaction
(amount 500.00, fee 50.00 → cash_in 550.00) and links it while the bill
stays PENDING — contradicting "a bill that is PENDING has no linked
Transaction" and "that Transaction is created only when the bill is
paid". -/
theorem bill_ownership_counterexample :
    billCreateView { txns := [], nextTxnId := 0 } 50000 (some 5000)
      = .ok ({ txns := [(0, ⟨.BILL_PAYMENT, 50000, some 5000, 55000, 0⟩)],
               nextTxnId := 1 },
             { amount := 50000, fee := some 5000, status := .PENDING,
               transaction := some 0, paid_at := none }) :=
  rfl

/-- C3 amended: a bill links at most one transaction at a time (a single
nullable reference), but a linked `BILL_PAYMENT` transaction is created
already by the bill-creation view while the bill stays PENDING; marking
that PENDING bill paid creates a second, fresh transaction and relinks, so
create-then-pay creates two transactions for the bill; re-running
mark-as-paid on a PAID bill never creates another. -/
theorem bill_ownership_amended (s : Store) (amount : Int) (fee : Option Int)
    (now : Nat) (s' : Store) (b : BillRec)
    (h : billCreateView s amount fee = .ok (s', b)) :
    b.status = BillStatus.PENDING ∧
    b.transaction = some s.nextTxnId ∧
    s'.txns.length = s.txns.length + 1 ∧
    (∃ s2 b2, billMarkAsPaidView s' b now = (s2, b2, PayOutcome.paid s'.nextTxnId) ∧
      b2.status = BillStatus.PAID ∧ b2.transaction = some s'.nextTxnId ∧
      s'.nextTxnId ≠ s.nextTxnId ∧ s2.txns.length = s.txns.length + 2) ∧
    (∀ B, B.status = BillStatus.PAID →
      billMarkAsPaidView s' B now = (s', B, PayOutcome.alreadyPaid)) := by
  unfold billCreateView createTxn at h
  dsimp only at h
  rcases hsv : (billPaymentTxn
      (⟨amount, fee, BillStatus.PENDING, none, none⟩ : BillRec)).save with e | t1 <;>
    rw [hsv] at h
  · exact absurd h (by simp)
  · simp only [Except.ok.injEq, Prod.mk.injEq] at h
    obtain ⟨hs', hb⟩ := h
    subst hs'
    subst hb
    refine ⟨rfl, rfl, by simp, ?_, ?_⟩
    · have hsv2 : (billPaymentTxn
          ({ amount := amount, fee := fee, status := BillStatus.PENDING,
             transaction := some s.nextTxnId, paid_at := none } : BillRec)).save
        = .ok t1 := hsv
      refine ⟨{ txns := (s.txns ++ [(s.nextTxnId, t1)]) ++ [(s.nextTxnId + 1, t1)],
                nextTxnId := s.nextTxnId + 1 + 1 },
        markAsPaid ({ amount := amount, fee := fee, status := BillStatus.PENDING,
                      transaction := some s.nextTxnId, paid_at := none } : BillRec)
          (s.nextTxnId + 1) now,
        ?_, rfl, rfl, by simp, ?_⟩
      · unfold billMarkAsPaidView createTxn
        rw [if_neg (by simp), hsv2]
      · simp only [List.length_append, List.length_singleton]
    · intro B hB
      simp [billMarkAsPaidView, hB]

/-- Witness for the amended C3: after creating a bill (500/50) through the
creation view, marking it paid pays it through a second, fresh
transaction. -/
theorem bill_ownership_amended_witness :
    ∃ s2 b2,
      billMarkAsPaidView
          { txns := [(0, ⟨.BILL_PAYMENT, 500, some 50, 550, 0⟩)], nextTxnId := 1 }
          { amount := 500, fee := some 50, status := .PENDING,
            transaction := some 0, paid_at := none } 9
        = (s2, b2, PayOutcome.paid 1) ∧ b2.status = BillStatus.PAID := by
  obtain ⟨-, -, -, ⟨s2, b2, h1, h2, -, -, -⟩, -⟩ :=
    bill_ownership_amended { txns := [], nextTxnId := 0 } 500 (some 50) 9
      { txns := [(0, ⟨.BILL_PAYMENT, 500, some 50, 550, 0⟩)], nextTxnId := 1 }
      { amount := 500, fee := some 50, status := .PENDING,
        transaction := some 0, paid_at := none }
      rfl
  exact ⟨s2, b2, h1, h2⟩

/-- Counterexample to C4: a PENDING bill with fee 2.00 exceeding amount 1.00
(reachable via the bill update form, which never checks fee against amount)
is not transitioned by the first mark-as-paid call: the transaction fails
validation on `fee` and the atomic block rolls everything back. -/
theorem mark_paid_counterexample :
    billMarkAsPaidView { txns := [], nextTxnId := 0 }
        ⟨100, some 200, .PENDING, none, none⟩ 0
      = ({ txns := [], nextTxnId := 0 }, ⟨100, some 200, .PENDING, none, none⟩,
         .rejected [FieldKey.fee]) :=
  rfl

/-- C4 amended: for every PENDING bill whose amount and fee pass
transaction validation (amount > 0, 0 ≤ fee ≤ amount), mark-as-paid is
idempotent: the first call transitions the bill to PAID, creates exactly
one BILL_PAYMENT transaction with the bill's amount and (defaulted) fee,
links it and stamps paid_at; the second call is the "already paid" warning
no-op that creates no transaction and changes nothing. -/
theorem mark_paid_idempotent (s : Store) (b : BillRec) (now now2 : Nat)
    (hp : b.status = BillStatus.PENDING) (ha : 0 < b.amount)
    (hf : 0 ≤ b.fee.getD 0) (hfa : b.fee.getD 0 ≤ b.amount) :
    ∃ s1 b1 t1,
      billMarkAsPaidView s b now = (s1, b1, PayOutcome.paid s.nextTxnId) ∧
      b1.status = BillStatus.PAID ∧
      b1.transaction = some s.nextTxnId ∧
      b1.paid_at = some now ∧
      s1.txns = s.txns ++ [(s.nextTxnId, t1)] ∧
      t1.transaction_type = TransactionType.BILL_PAYMENT ∧
      t1.amount = b.amount ∧
      t1.fee = some (b.fee.getD 0) ∧
      billMarkAsPaidView s1 b1 now2 = (s1, b1, PayOutcome.alreadyPaid) := by
  have hct := createTxn_billPayment s b ha hf hfa
  refine ⟨{ txns := s.txns ++ [(s.nextTxnId, setCashFlow (billPaymentTxn b))],
            nextTxnId := s.nextTxnId + 1 },
    markAsPaid b s.nextTxnId now, setCashFlow (billPaymentTxn b),
    ?_, rfl, rfl, rfl, rfl,
    (setCashFlow_transaction_type _).trans rfl,
    (setCashFlow_amount _).trans rfl,
    (setCashFlow_fee _).trans rfl, ?_⟩
  · unfold billMarkAsPaidView
    rw [if_neg (by simp [hp]), hct]
  · simp [billMarkAsPaidView, markAsPaid]

/-- Witness for the amended C4: a PENDING bill (5.00, fee 0.50) pays once,
and a second call reports "already paid" and changes nothing. -/
theorem mark_paid_idempotent_witness :
    ∃ s1 b1 t1,
      billMarkAsPaidView { txns := [], nextTxnId := 0 }
          ⟨500, some 50, .PENDING, none, none⟩ 7
        = (s1, b1, PayOutcome.paid 0) ∧
      b1.status = BillStatus.PAID ∧
      b1.transaction = some 0 ∧
      b1.paid_at = some 7 ∧
      s1.txns = [] ++ [(0, t1)] ∧
      t1.transaction_type = TransactionType.BILL_PAYMENT ∧
      t1.amount = 500 ∧
      t1.fee = some 50 ∧
      billMarkAsPaidView s1 b1 8 = (s1, b1, PayOutcome.alreadyPaid) :=
  mark_paid_idempotent { txns := [], nextTxnId := 0 }
    ⟨500, some 50, .PENDING, none, none⟩ 7 8 rfl (by decide) (by decide) (by decide)

lemma bulkGo_spec (now : Nat) (bills : List BillRec) :
    ∀ s : Store,
      (∀ b ∈ bills, b.status = BillStatus.PENDING →
        0 < b.amount ∧ 0 ≤ b.fee.getD 0 ∧ b.fee.getD 0 ≤ b.amount) →
      ∃ s' bills',
        bulkGo now s bills
          = .ok (s', bills',
              (bills.filter (fun b => b.status == BillStatus.PENDING)).length) ∧
        s'.txns.length
          = s.txns.length
              + (bills.filter (fun b => b.status == BillStatus.PENDING)).length ∧
        List.Forall₂
          (fun b b' =>
            if b.status = BillStatus.PENDING
            then b'.status = BillStatus.PAID ∧ b'.transaction ≠ none
            else b' = b) bills bills' := by
  induction bills with
  | nil => exact fun s _ => ⟨s, [], rfl, by simp, List.Forall₂.nil⟩
  | cons b rest ih =>
    intro s hv
    by_cases hb : b.status = BillStatus.PENDING
    · obtain ⟨ha, hf, hfa⟩ := hv b (List.mem_cons_self b rest) hb
      have hct := createTxn_billPayment s b ha hf hfa
      obtain ⟨s', rest', hgo, hlen, hall⟩ :=
        ih { txns := s.txns ++ [(s.nextTxnId, setCashFlow (billPaymentTxn b))],
             nextTxnId := s.nextTxnId + 1 }
          (fun x hx => hv x (List.mem_cons_of_mem b hx))
      refine ⟨s', markAsPaid b s.nextTxnId now :: rest', ?_, ?_, ?_⟩
      · unfold bulkGo
        rw [if_pos hb]
        simp only [hct, hgo]
        simp [List.filter_cons, hb]
      · simp only [List.length_append, List.length_singleton] at hlen
        simp only [List.filter_cons, hb]
        simp only [beq_self_eq_true, if_true, List.length_cons]
        omega
      · exact List.Forall₂.cons
          (by rw [if_pos hb]; exact ⟨rfl, by simp [markAsPaid]⟩) hall
    · obtain ⟨s', rest', hgo, hlen, hall⟩ :=
        ih s (fun x hx => hv x (List.mem_cons_of_mem b hx))
      refine ⟨s', b :: rest', ?_, ?_, ?_⟩
      · unfold bulkGo
        rw [if_neg hb]
        simp only [hgo]
        simp [List.filter_cons, hb]
      · simp only [List.filter_cons]
        rw [if_neg (by simpa using hb)]
        exact hlen
      · exact List.Forall₂.cons (by rw [if_neg hb]) hall

/-- Counterexample to C10: a bulk selection containing a PENDING bill whose
fee (2.00) exceeds its amount (1.00) does not get the pay rule applied
independently per bill: the ValidationError aborts the whole atomic block,
so neither that bill nor the valid PENDING bill in the same selection is
transitioned and no count is produced. -/
theorem bulk_mark_paid_counterexample :
    billBulkMarkAsPaidView { txns := [], nextTxnId := 0 }
        [⟨100, some 200, .PENDING, none, none⟩, ⟨500, some 50, .PENDING, none, none⟩] 0
      = .error [FieldKey.fee] :=
  rfl

/-- C10 amended: provided every PENDING bill in the selection passes
transaction validation (amount > 0, 0 ≤ fee ≤ amount), the bulk view
applies the single-bill pay rule independently to each PENDING bill,
leaves every non-PENDING bill untouched (creating no transaction for it),
and reports the count of bills actually transitioned. -/
theorem bulk_mark_paid_amended (s : Store) (bills : List BillRec) (now : Nat)
    (hv : ∀ b ∈ bills, b.status = BillStatus.PENDING →
      0 < b.amount ∧ 0 ≤ b.fee.getD 0 ∧ b.fee.getD 0 ≤ b.amount) :
    ∃ s' bills',
      billBulkMarkAsPaidView s bills now
        = .ok (s', bills',
            (bills.filter (fun b => b.status == BillStatus.PENDING)).length) ∧
      bills'.length = bills.length ∧
      s'.txns.length
        = s.txns.length
            + (bills.filter (fun b => b.status == BillStatus.PENDING)).length ∧
      List.Forall₂
        (fun b b' =>
          if b.status = BillStatus.PENDING
          then b'.status = BillStatus.PAID ∧ b'.transaction ≠ none
          else b' = b) bills bills' := by
  unfold billBulkMarkAsPaidView
  by_cases hall : bills.all (fun b => !(b.status == BillStatus.PENDING))
  · rw [if_pos hall]
    have hnil : bills.filter (fun b => b.status == BillStatus.PENDING) = [] := by
      rw [List.filter_eq_nil_iff]
      intro b hb
      simpa using List.all_eq_true.mp hall b hb
    refine ⟨s, bills, by simp [hnil], rfl, by simp [hnil], ?_⟩
    rw [List.forall₂_same]
    intro b hb
    rw [if_neg (by simpa using List.all_eq_true.mp hall b hb)]
  · rw [if_neg hall]
    obtain ⟨s', bills', hgo, hlen, hfa⟩ := bulkGo_spec now bills s hv
    exact ⟨s', bills', hgo, (hfa.length_eq).symm, hlen, hfa⟩

/-- Witness for the amended C10 at spec Scenario 6: bulk over three bills of
which one is already PAID transitions the two PENDING ones and reports
count 2, leaving the PAID one untouched. -/
theorem bulk_mark_paid_amended_witness :
    ∃ s' bills',
      billBulkMarkAsPaidView { txns := [], nextTxnId := 0 }
          [⟨500, some 50, .PENDING, none, none⟩,
           ⟨300, none, .PAID, some 9, some 1⟩,
           ⟨200, some 0, .PENDING, none, none⟩] 5
        = .ok (s', bills', 2) ∧
      bills'.length = 3 ∧
      s'.txns.length = 0 + 2 ∧
      List.Forall₂
        (fun b b' =>
          if b.status = BillStatus.PENDING
          then b'.status = BillStatus.PAID ∧ b'.transaction ≠ none
          else b' = b)
        [⟨500, some 50, .PENDING, none, none⟩,
         ⟨300, none, .PAID, some 9, some 1⟩,
         ⟨200, some 0, .PENDING, none, none⟩] bills' :=
  bulk_mark_paid_amended { txns := [], nextTxnId := 0 }
    [⟨500, some 50, .PENDING, none, none⟩,
     ⟨300, none, .PAID, some 9, some 1⟩,
     ⟨200, some 0, .PENDING, none, none⟩] 5 (by decide)

/-! ## Lemmas about the daily balance rollup -/

lemma netTotal_cons (r : PersistedTxn) (l : List PersistedTxn) :
    netTotal (r :: l) = (r.cash_in - r.cash_out) + netTotal l := by
  simp [netTotal]

lemma netTotal_eq_sub (l : List PersistedTxn) :
    netTotal l
      = (l.map (fun r => r.cash_in)).sum - (l.map (fun r => r.cash_out)).sum := by
  induction l with
  | nil => simp [netTotal]
  | cons r t ih =>
    rw [netTotal_cons, ih]
    simp only [List.map_cons, List.sum_cons]
    omega

lemma netTotal_lt_succ (rows : List PersistedTxn) (d : Nat) :
    netTotal (rows.filter (fun r => decide (r.day < d + 1)))
      = netTotal (rows.filter (fun r => decide (r.day < d)))
        + netTotal (onDay rows d) := by
  induction rows with
  | nil => simp [netTotal, onDay]
  | cons r rest ih =>
    simp only [onDay, List.filter_cons] at ih ⊢
    by_cases h1 : r.day < d + 1
    · by_cases h2 : r.day = d
      · have h3 : ¬ r.day < d := by omega
        simp [h1, h2, h3, netTotal_cons, ih]
        omega
      · have h3 : r.day < d := by omega
        simp [h1, h2, h3, netTotal_cons, ih]
        omega
    · have h3 : ¬ r.day < d := by omega
      have h2 : ¬ r.day = d := by omega
      simp [h1, h2, h3, netTotal_cons, ih]

lemma dailyWalk_mem_spec (rows : List PersistedTxn) (today : Nat) :
    ∀ (n a : Nat) (opening : Int),
      opening = netTotal (rows.filter (fun r => decide (r.day < a))) →
      ∀ ds ∈ dailyWalk rows today (List.range' a n) opening,
        (a ≤ ds.date ∧ ds.date < a + n) ∧
        ds.opening_balance = netTotal (rows.filter (fun r => decide (r.day < ds.date))) ∧
        ds.cash_in = ((onDay rows ds.date).map (fun r => r.cash_in)).sum ∧
        ds.cash_out = ((onDay rows ds.date).map (fun r => r.cash_out)).sum ∧
        ds.net_change = ds.cash_in - ds.cash_out ∧
        ds.closing_balance
          = netTotal (rows.filter (fun r => decide (r.day < ds.date + 1))) ∧
        ds.transaction_count = (onDay rows ds.date).length ∧
        (0 < (onDay rows ds.date).length ∨ ds.date = today) := by
  intro n
  induction n with
  | zero =>
    intro a opening _ ds hds
    simp [List.range'_zero, dailyWalk] at hds
  | succ m ih =>
    intro a opening hop ds hds
    rw [List.range'_succ] at hds
    simp only [dailyWalk] at hds
    have hcl : opening
        + (((onDay rows a).map (fun r => r.cash_in)).sum
            - ((onDay rows a).map (fun r => r.cash_out)).sum)
        = netTotal (rows.filter (fun r => decide (r.day < a + 1))) := by
      rw [netTotal_lt_succ, ← hop, netTotal_eq_sub (onDay rows a)]
    by_cases hcond : 0 < (onDay rows a).length ∨ a = today
    · rw [if_pos hcond] at hds
      rcases List.mem_cons.mp hds with rfl | hds'
      · exact ⟨⟨Nat.le_refl a, show a < a + (m + 1) by omega⟩,
          hop, rfl, rfl, rfl, hcl, rfl, hcond⟩
      · obtain ⟨⟨h1, h2⟩, rest⟩ := ih (a + 1) _ hcl ds hds'
        exact ⟨⟨by omega, by omega⟩, rest⟩
    · rw [if_neg hcond] at hds
      obtain ⟨⟨h1, h2⟩, rest⟩ := ih (a + 1) _ hcl ds hds
      exact ⟨⟨by omega, by omega⟩, rest⟩

lemma dailyWalk_emits (rows : List PersistedTxn) (today : Nat) :
    ∀ (n a : Nat) (opening : Int) (d : Nat),
      a ≤ d → d < a + n → (0 < (onDay rows d).length ∨ d = today) →
      ∃ ds ∈ dailyWalk rows today (List.range' a n) opening, ds.date = d := by
  intro n
  induction n with
  | zero => intro a opening d h1 h2 _; omega
  | succ m ih =>
    intro a opening d h1 h2 hcond
    rw [List.range'_succ]
    simp only [dailyWalk]
    by_cases hd : d = a
    · subst hd
      rw [if_pos hcond]
      exact ⟨_, List.mem_cons_self _ _, rfl⟩
    · obtain ⟨ds, hmem, hdate⟩ := ih (a + 1) _ d (by omega) (by omega) hcond
      by_cases hc : 0 < (onDay rows a).length ∨ a = today
      · rw [if_pos hc]
        exact ⟨ds, List.mem_cons_of_mem _ hmem, hdate⟩
      · rw [if_neg hc]
        exact ⟨ds, hmem, hdate⟩

/-- C5: the daily rollup computes the opening balance from the net of all
transactions strictly before the range, chains each day's closing balance
as opening + that day's net (so each emitted day's closing balance equals
the net of everything up to and including that day, empty omitted days
carrying the balance through unchanged), and a day of the range is emitted
iff it has at least one transaction or is the local current date. -/
theorem daily_rollup_correct (rows : List PersistedTxn) (today start endDate : Nat) :
    (∀ ds ∈ dailyRollup rows today start endDate,
      (start ≤ ds.date ∧ ds.date ≤ endDate) ∧
      ds.opening_balance = netTotal (rows.filter (fun r => decide (r.day < ds.date))) ∧
      ds.closing_balance = ds.opening_balance + (ds.cash_in - ds.cash_out) ∧
      ds.closing_balance = netTotal (rows.filter (fun r => decide (r.day ≤ ds.date))) ∧
      ds.cash_in = ((onDay rows ds.date).map (fun r => r.cash_in)).sum ∧
      ds.cash_out = ((onDay rows ds.date).map (fun r => r.cash_out)).sum ∧
      ds.transaction_count = (onDay rows ds.date).length ∧
      (0 < (onDay rows ds.date).length ∨ ds.date = today)) ∧
    (∀ d, start ≤ d → d ≤ endDate →
      (0 < (onDay rows d).length ∨ d = today) →
      ∃ ds ∈ dailyRollup rows today start endDate, ds.date = d) := by
  constructor
  · intro ds hds
    simp only [dailyRollup] at hds
    obtain ⟨⟨hge, hlt⟩, hopen, hcin, hcout, hnet, hclose, hcount, hcond⟩ :=
      dailyWalk_mem_spec rows today (endDate + 1 - start) start _ rfl ds hds
    refine ⟨⟨hge, by omega⟩, hopen, ?_, ?_, hcin, hcout, hcount, hcond⟩
    · rw [hclose, hopen, hcin, hcout, netTotal_lt_succ,
        netTotal_eq_sub (onDay rows ds.date)]
    · rw [hclose]
      congr 1
      apply List.filter_congr
      intro r _
      simp [Nat.lt_succ_iff]
  · intro d h1 h2 hcond
    simp only [dailyRollup]
    exact dailyWalk_emits rows today (endDate + 1 - start) start _ d h1 (by omega) hcond

/-- Witness for C5: with one deposit row on day 5 and today = 6, the
rollup over [4, 6] emits day 5. -/
theorem daily_rollup_correct_witness :
    ∃ ds ∈ dailyRollup [⟨.DEPOSIT, 100, 0, 100, 0, 5⟩] 6 4 6, ds.date = 5 :=
  (daily_rollup_correct [⟨.DEPOSIT, 100, 0, 100, 0, 5⟩] 6 4 6).2 5
    (by decide) (by decide) (Or.inl (by decide))

lemma netTotal_range_split (rows : List PersistedTxn) (a m : Nat) :
    netTotal (rows.filter (fun r => decide (a ≤ r.day ∧ r.day < a + (m + 1))))
      = netTotal (onDay rows a)
        + netTotal (rows.filter
            (fun r => decide (a + 1 ≤ r.day ∧ r.day < a + 1 + m))) := by
  induction rows with
  | nil => simp [netTotal, onDay]
  | cons r rest ih =>
    simp only [onDay, List.filter_cons] at ih ⊢
    by_cases h1 : a ≤ r.day ∧ r.day < a + (m + 1)
    · by_cases h2 : r.day = a
      · have h3 : ¬(a + 1 ≤ r.day ∧ r.day < a + 1 + m) := by omega
        simp [-Bool.decide_and, h1, h2, h3, netTotal_cons, ih]
        omega
      · have h3 : a + 1 ≤ r.day ∧ r.day < a + 1 + m := by omega
        simp [-Bool.decide_and, h1, h2, h3, netTotal_cons, ih]
        omega
    · have h2 : ¬ r.day = a := by omega
      have h3 : ¬(a + 1 ≤ r.day ∧ r.day < a + 1 + m) := by omega
      simp [-Bool.decide_and, h1, h2, h3, netTotal_cons, ih]

lemma netTotal_onDay_eq_sub (rows : List PersistedTxn) (a : Nat) :
    netTotal (onDay rows a)
      = ((onDay rows a).map (fun r => r.cash_in)).sum
        - ((onDay rows a).map (fun r => r.cash_out)).sum :=
  netTotal_eq_sub (onDay rows a)

lemma dailyWalk_getLast (rows : List PersistedTxn) (today : Nat) :
    ∀ (n a : Nat) (opening : Int),
      ((dailyWalk rows today (List.range' a n) opening).getLast? = none →
        netTotal (rows.filter (fun r => decide (a ≤ r.day ∧ r.day < a + n))) = 0) ∧
      (∀ ds, (dailyWalk rows today (List.range' a n) opening).getLast? = some ds →
        ds.closing_balance
          = opening
            + netTotal (rows.filter (fun r => decide (a ≤ r.day ∧ r.day < a + n)))) := by
  intro n
  induction n with
  | zero =>
    intro a opening
    constructor
    · intro _
      have hnil : rows.filter (fun r => decide (a ≤ r.day ∧ r.day < a + 0)) = [] := by
        rw [List.filter_eq_nil_iff]
        intro r _
        simp only [decide_eq_true_eq]
        omega
      rw [hnil]
      rfl
    · intro ds hds
      simp [List.range'_zero, dailyWalk] at hds
  | succ m ih =>
    intro a opening
    rw [List.range'_succ]
    simp only [dailyWalk]
    by_cases hcond : 0 < (onDay rows a).length ∨ a = today
    · rw [if_pos hcond]
      constructor
      · intro hnone
        rcases htail : (dailyWalk rows today (List.range' (a + 1) m)
            (opening + (((onDay rows a).map (fun r => r.cash_in)).sum
              - ((onDay rows a).map (fun r => r.cash_out)).sum))).getLast? with _ | ds
        · exfalso
          rw [List.getLast?_eq_none_iff] at htail
          rw [htail] at hnone
          simp [List.getLast?_singleton] at hnone
        · exfalso
          have hne : dailyWalk rows today (List.range' (a + 1) m)
              (opening + (((onDay rows a).map (fun r => r.cash_in)).sum
                - ((onDay rows a).map (fun r => r.cash_out)).sum)) ≠ [] := by
            intro hnil
            rw [hnil] at htail
            simp at htail
          rcases hW : dailyWalk rows today (List.range' (a + 1) m)
              (opening + (((onDay rows a).map (fun r => r.cash_in)).sum
                - ((onDay rows a).map (fun r => r.cash_out)).sum)) with _ | ⟨y, ys⟩
          · exact hne hW
          · rw [hW, List.getLast?_cons_cons, ← hW, htail] at hnone
            cases hnone
      · intro ds hds
        rw [netTotal_range_split, netTotal_onDay_eq_sub]
        rcases hW : dailyWalk rows today (List.range' (a + 1) m)
            (opening + (((onDay rows a).map (fun r => r.cash_in)).sum
              - ((onDay rows a).map (fun r => r.cash_out)).sum)) with _ | ⟨y, ys⟩
        · rw [hW] at hds
          have h0 := (ih (a + 1) (opening
              + (((onDay rows a).map (fun r => r.cash_in)).sum
                - ((onDay rows a).map (fun r => r.cash_out)).sum))).1 (by rw [hW]; rfl)
          simp [List.getLast?_singleton] at hds
          subst hds
          dsimp only
          omega
        · rw [hW, List.getLast?_cons_cons, ← hW] at hds
          have h2 := (ih (a + 1) (opening
              + (((onDay rows a).map (fun r => r.cash_in)).sum
                - ((onDay rows a).map (fun r => r.cash_out)).sum))).2 ds hds
          rw [h2]
          omega
    · rw [if_neg hcond]
      have hcount : (onDay rows a).length = 0 := by
        rcases Nat.eq_zero_or_pos (onDay rows a).length with h | h
        · exact h
        · exact absurd (Or.inl h) hcond
      have hone : onDay rows a = [] := List.length_eq_zero.mp hcount
      have hzero : ((onDay rows a).map (fun r => r.cash_in)).sum
          - ((onDay rows a).map (fun r => r.cash_out)).sum = 0 := by
        rw [hone]
        simp
      constructor
      · intro hnone
        have h0 := (ih (a + 1) (opening
            + (((onDay rows a).map (fun r => r.cash_in)).sum
              - ((onDay rows a).map (fun r => r.cash_out)).sum))).1 hnone
        rw [netTotal_range_split, netTotal_onDay_eq_sub, hzero]
        omega
      · intro ds hds
        have h2 := (ih (a + 1) (opening
            + (((onDay rows a).map (fun r => r.cash_in)).sum
              - ((onDay rows a).map (fun r => r.cash_out)).sum))).2 ds hds
        rw [netTotal_range_split, netTotal_onDay_eq_sub, h2, hzero]
        omega

lemma netTotal_split_le (rows : List PersistedTxn) (start endDate : Nat)
    (h : start ≤ endDate) :
    netTotal (rows.filter (fun r => decide (r.day ≤ endDate)))
      = netTotal (rows.filter (fun r => decide (r.day < start)))
        + netTotal (rows.filter
            (fun r => decide (start ≤ r.day ∧ r.day < endDate + 1))) := by
  induction rows with
  | nil => simp [netTotal]
  | cons r rest ih =>
    simp only [List.filter_cons] at ih ⊢
    by_cases h1 : r.day ≤ endDate
    · by_cases h2 : r.day < start
      · have h3 : ¬(start ≤ r.day ∧ r.day < endDate + 1) := by omega
        simp [-Bool.decide_and, h1, h2, h3, netTotal_cons, ih]
        omega
      · have h3 : start ≤ r.day ∧ r.day < endDate + 1 := by omega
        simp [-Bool.decide_and, h1, h2, h3, netTotal_cons, ih]
        omega
    · have h2 : ¬ r.day < start := by omega
      have h3 : ¬(start ≤ r.day ∧ r.day < endDate + 1) := by omega
      simp [-Bool.decide_and, h1, h2, h3, netTotal_cons, ih]

/-- C6: for start ≤ end, the closing balance of the last emitted day of the
daily rollup equals the net (total cash_in minus total cash_out) of all
transactions dated up to the end of the range. -/
theorem rollup_round_trip (rows : List PersistedTxn) (today start endDate : Nat)
    (hse : start ≤ endDate) (ds : DaySummary)
    (h : (dailyRollup rows today start endDate).getLast? = some ds) :
    ds.closing_balance
      = netTotal (rows.filter (fun r => decide (r.day ≤ endDate))) := by
  simp only [dailyRollup] at h
  have h2 := (dailyWalk_getLast rows today (endDate + 1 - start) start _).2 ds h
  have harith : start + (endDate + 1 - start) = endDate + 1 := by omega
  rw [h2, netTotal_split_le rows start endDate hse]
  congr 2
  apply List.filter_congr
  intro r _
  rw [harith]

/-- Witness for C6: one deposit row on day 5, today = 6, range [4, 6]: the
last emitted day (today, day 6) closes at the net of everything up to day
6. -/
theorem rollup_round_trip_witness :
    ((⟨6, 100, 0, 0, 0, 100, 0, true⟩ : DaySummary)).closing_balance
      = netTotal ([⟨.DEPOSIT, 100, 0, 100, 0, 5⟩].filter
          (fun r => decide (r.day ≤ 6))) :=
  rollup_round_trip [⟨.DEPOSIT, 100, 0, 100, 0, 5⟩] 6 4 6 (by decide)
    ⟨6, 100, 0, 0, 0, 100, 0, true⟩ (by decide)

/-! ## Lemmas about the analytics category rollups -/

lemma groupTotals_cons (r : PersistedTxn) (rows : List PersistedTxn)
    (today monthStart : Nat) (w : AnalyticsWindow) (g : List TransactionType) :
    groupTotals (r :: rows) today monthStart w g
      = if decide (r.transaction_type ∈ g) && inWindow today monthStart w r.day
        then { cash := (r.cash_in - r.cash_out)
                 + (groupTotals rows today monthStart w g).cash,
               profit := r.fee + (groupTotals rows today monthStart w g).profit,
               count := (groupTotals rows today monthStart w g).count + 1 }
        else groupTotals rows today monthStart w g := by
  by_cases h : (decide (r.transaction_type ∈ g)
      && inWindow today monthStart w r.day) = true
  · simp [groupTotals, List.filter_cons, h]
  · simp [groupTotals, List.filter_cons, h]

lemma periodTotals_cash_cons (r : PersistedTxn) (rows : List PersistedTxn)
    (today monthStart : Nat) (w : AnalyticsWindow) :
    (periodTotals (r :: rows) today monthStart w).cash
      = (if decide (r.transaction_type ∈ coveredTypes)
            && inWindow today monthStart w r.day
         then r.cash_in - r.cash_out else 0)
        + (periodTotals rows today monthStart w).cash := by
  cases hw : inWindow today monthStart w r.day
  · simp [periodTotals, analyticsGroups, groupTotals_cons, hw]
  · cases hty : r.transaction_type <;>
      simp [periodTotals, analyticsGroups, groupTotals_cons, hw, hty, coveredTypes] <;>
        ring

lemma periodTotals_count_cons (r : PersistedTxn) (rows : List PersistedTxn)
    (today monthStart : Nat) (w : AnalyticsWindow) :
    (periodTotals (r :: rows) today monthStart w).count
      = (if decide (r.transaction_type ∈ coveredTypes)
            && inWindow today monthStart w r.day
         then 1 else 0)
        + (periodTotals rows today monthStart w).count := by
  cases hw : inWindow today monthStart w r.day
  · simp [periodTotals, analyticsGroups, groupTotals_cons, hw]
  · cases hty : r.transaction_type <;>
      simp [periodTotals, analyticsGroups, groupTotals_cons, hw, hty, coveredTypes] <;>
        omega

/-- Counterexample to C9: the analytics type-groups are not a partition of
the transaction-type enumeration — OTHER, CASH_CREDIT, BANK_DEPOSIT and
BANK_WITHDRAWAL belong to no group — and the period grand total misses such
transactions: a window holding exactly one OTHER row with cash_out = 1.00
has grand total cash 0 and count 0 although the window's net is -100. -/
theorem analytics_partition_counterexample :
    TransactionType.OTHER ∉ coveredTypes ∧
    TransactionType.CASH_CREDIT ∉ coveredTypes ∧
    TransactionType.BANK_DEPOSIT ∉ coveredTypes ∧
    TransactionType.BANK_WITHDRAWAL ∉ coveredTypes ∧
    periodTotals [⟨.OTHER, 100, 0, 0, 100, 5⟩] 5 1 .allTime
      = { cash := 0, profit := 0, count := 0 } ∧
    netTotal [⟨.OTHER, 100, 0, 0, 100, 5⟩] = -100 := by
  decide

/-- C9 amended: the analytics type-groups are pairwise disjoint (every
enumerated type belongs to at most one group) but not exhaustive: exactly
OTHER, CASH_CREDIT, BANK_DEPOSIT and BANK_WITHDRAWAL belong to no group.
For every window the period grand total is the sum of the per-group
aggregates and accounts exactly for the transactions whose type lies in
some group, not for every transaction in the window. -/
theorem analytics_partition_amended (rows : List PersistedTxn)
    (today monthStart : Nat) (w : AnalyticsWindow) :
    (∀ ty : TransactionType, analyticsGroups.countP (fun g => decide (ty ∈ g)) ≤ 1) ∧
    (∀ ty : TransactionType, ty ∈ coveredTypes ↔
      (ty ≠ .OTHER ∧ ty ≠ .CASH_CREDIT ∧ ty ≠ .BANK_DEPOSIT ∧ ty ≠ .BANK_WITHDRAWAL)) ∧
    (periodTotals rows today monthStart w).cash
      = netTotal (rows.filter (fun r =>
          decide (r.transaction_type ∈ coveredTypes)
            && inWindow today monthStart w r.day)) ∧
    (periodTotals rows today monthStart w).count
      = (rows.filter (fun r =>
          decide (r.transaction_type ∈ coveredTypes)
            && inWindow today monthStart w r.day)).length := by
  refine ⟨by decide, by decide, ?_, ?_⟩
  · induction rows with
    | nil => simp [periodTotals, groupTotals, analyticsGroups, netTotal]
    | cons r rest ih =>
      rw [periodTotals_cash_cons, List.filter_cons, ih]
      by_cases h : (decide (r.transaction_type ∈ coveredTypes)
          && inWindow today monthStart w r.day) = true
      · simp [h, netTotal_cons]
      · simp [h]
  · induction rows with
    | nil => simp [periodTotals, groupTotals, analyticsGroups]
    | cons r rest ih =>
      rw [periodTotals_count_cons, List.filter_cons, ih]
      by_cases h : (decide (r.transaction_type ∈ coveredTypes)
          && inWindow today monthStart w r.day) = true
      · simp [h]
        omega
      · simp [h]

end Cashtrack
